import Mathlib

/-!
Verification of the tagged-data subsystem of the valsimp repository
(src/valsimp/files/taggedfile.py), as a shallow embedding.

Lines of the input file are modelled as `List Char` without their trailing
newline.  This is equivalent to the Python code's view: `readline` keeps the
newline, but every use in taggedfile.py (the `startswith("@")` test, the
whitespace tokenization of data lines, and the tagline regular expression,
whose `$` matches just before a single trailing newline and whose final
character classes cannot consume a newline) is insensitive to it.

Python exception objects are modelled by the inductive type `PyError`;
the distinct human-readable message strings of the source are modelled by
distinct constructors (the exact strings are quoted in comments).
-/

namespace ValSimp

instance {ε α : Type} [DecidableEq ε] [DecidableEq α] : DecidableEq (Except ε α) :=
  fun a b =>
    match a, b with
    | .ok x, .ok y =>
        if h : x = y then .isTrue (by rw [h]) else .isFalse (by intro hc; cases hc; exact h rfl)
    | .error x, .error y =>
        if h : x = y then .isTrue (by rw [h]) else .isFalse (by intro hc; cases hc; exact h rfl)
    | .ok _, .error _ => .isFalse (by intro hc; cases hc)
    | .error _, .ok _ => .isFalse (by intro hc; cases hc)

/-- A line (or token) of text, without trailing newline. -/
abbrev Line := List Char

/-- Convenience literal constructor. -/
def lit (s : String) : Line := s.data

/-- Python's `\s` / `str.split()` whitespace, restricted to ASCII
(the inputs of this file format are ASCII; cf. the reader's
`str(line, encoding="ascii")` normalization). -/
def isPySpace (c : Char) : Bool :=
  (c == ' ') || (c == '\t') || (c == '\n') || (c == '\r') || (c == '\x0b') || (c == '\x0c')

/-- Python `str.split(sep)` for a one-character separator: splits at every
occurrence of `sep`, keeping empty segments; the result is always nonempty
(`"".split(",") == [""]`). -/
def splitOnChar (sep : Char) : Line → List Line
  | [] => [[]]
  | c :: cs =>
      let r := splitOnChar sep cs
      if c = sep then [] :: r
      else
        match r with
        | s :: rest => (c :: s) :: rest
        | [] => [[c]]

def pySplitWsAux : Line → Line → List Line
  | [], acc => if acc.isEmpty then [] else [acc.reverse]
  | c :: cs, acc =>
      if isPySpace c then
        if acc.isEmpty then pySplitWsAux cs [] else acc.reverse :: pySplitWsAux cs []
      else pySplitWsAux cs (c :: acc)

/-- Python `str.split()` with no argument: whitespace-separated tokens,
empty tokens discarded. -/
def pySplitWs (l : Line) : List Line := pySplitWsAux l []

/-- Python `str.strip()` (used for the stored `self.tagline`). -/
def pyStrip (l : Line) : Line :=
  ((l.dropWhile isPySpace).reverse.dropWhile isPySpace).reverse

/-- `line.startswith("@")`, the reader's header-line test. -/
def isTagline : Line → Bool
  | '@' :: _ => true
  | _ => false

/-- Value of a nonempty all-digit string. -/
def natOfDigits (ds : Line) : Nat :=
  ds.foldl (fun a c => a * 10 + (c.toNat - 48)) 0

/-- Python `int(s)` restricted to unsigned digit strings (the only inputs it
receives here: the shape segments, which the tagline grammar constrains to
digit strings or — the failing case — the empty string). `none` models the
`ValueError` that `int("")` raises. -/
def natOfDigits? (ds : Line) : Option Nat :=
  if ds ≠ [] ∧ ds.all Char.isDigit then some (natOfDigits ds) else none

/-- Python `int(tok)` for a whitespace-free token: optional sign, then
digits.  Models the per-element conversion of `np.array(values, dtype=int)`. -/
def pyIntTok : Line → Option Int
  | '+' :: ds => (natOfDigits? ds).map Int.ofNat
  | '-' :: ds => (natOfDigits? ds).map (fun n => -(n : Int))
  | ds => (natOfDigits? ds).map Int.ofNat

def isDigits (l : Line) : Bool := !l.isEmpty && l.all Char.isDigit

def stripSign : Line → Line
  | '+' :: r => r
  | '-' :: r => r
  | l => l

/-- Mantissa of a float literal: `digits`, `digits.digits?`, or `.digits`. -/
def mantissaOK (l : Line) : Bool :=
  match splitOnChar '.' l with
  | [i] => isDigits i
  | [i, f] => i.all Char.isDigit && f.all Char.isDigit && (!i.isEmpty || !f.isEmpty)
  | _ => false

/-- Model of Python `float(tok)` succeeding on a whitespace-free token:
`[sign] mantissa [(e|E) [sign] digits]`.  (The exotic `inf`/`nan`/underscore
literal forms are not modelled; no claim depends on them.)  Models the
per-element conversion of `np.array(values, dtype=float)`. -/
def isFloatTok (t : Line) : Bool :=
  let t := t.map (fun c => if c = 'E' then 'e' else c)
  match splitOnChar 'e' (stripSign t) with
  | [m] => mantissaOK m
  | [m, e] => mantissaOK m && isDigits (stripSign e)
  | _ => false

/-! ## Errors (exception classes and their message strings) -/

/-- The messages of `ConversionError` raised by the converters. -/
inductive ConvMsg
  /-- "Unable to convert string to float: ..." -/
  | unableFloat
  /-- "Unable to convert string to integer: ..." -/
  | unableInt
  /-- "Unable to convert string to complex: ..." -/
  | unableComplex
  /-- "Unable to convert '%s' to logical: " -/
  | unableLogical
  /-- "Too many values" -/
  | tooMany
  /-- "Complex converter needs even strings" -/
  | needsEven
deriving DecidableEq

/-- The messages carried by `InvalidEntryError` out of `TaggedEntry.__init__`. -/
inductive EntryMsg
  /-- "Invalid tag format" -/
  | invalidTagFormat
  /-- "Invalid data dtype '%s'" (the dtype string is the payload) -/
  | invalidDtype (dtype : Line)
  /-- `str(ex)` for a caught `ConversionError` ex -/
  | convError (m : ConvMsg)
  /-- "Incompatible rank and shape" -/
  | incompatibleRankShape
  /-- "Invalid nr. of values" -/
  | invalidNrValues
deriving DecidableEq

/-- `ValueError`s that can escape `TaggedEntry.__init__` uncaught. -/
inductive ValMsg
  /-- numpy: "cannot reshape array of size n into shape s" -/
  | cannotReshape
  /-- "invalid literal for int() with base 10: ''" from `int("")` on an
  empty shape group with rank > 0 -/
  | invalidIntLiteral
deriving DecidableEq

/-- `AttributeError`s that can escape uncaught. -/
inductive AttrMsg
  /-- "'list' object has no attribute 'split'" -/
  | listHasNoSplit
  /-- "'TaggedCollection' object has no attribute '_taglines'" -/
  | noTaglinesAttr
deriving DecidableEq

/-- The Python exceptions observable from this module.  `invalidEntry` is the
module's own `InvalidEntryError(start, end, msg)` with its two 0-defaulted
line fields; the others are built-in exception classes escaping uncaught. -/
inductive PyError
  | invalidEntry (start stop : Nat) (msg : EntryMsg)
  | conversionError (m : ConvMsg)
  | attributeError (a : AttrMsg)
  | valueError (v : ValMsg)
  | indexError
deriving DecidableEq

/-! ## Converters

The module-level table `TaggedEntry._CONVERTERS` instantiates each converter
class with the default `nolist=False`, so the `nolist` branches of
`Converter.__call__` (`if self.nolist and len(values) > 1: ...` and the
`result[0]` projection) are inactive on every code path reachable in this
module; the converters are embedded as instantiated. -/

/-- Decoded values.  Real (and the components of complex) values are kept as
their validated source tokens: every claim concerns token counts, pairing and
structure, never floating-point arithmetic. -/
inductive TValue
  | vint (n : Int)
  | vreal (tok : Line)
  | vcomplex (re im : Line)
  | vbool (b : Bool)
deriving DecidableEq

/-- The `strvalue` argument of a converter call: either a single string or a
list of strings (`TaggedReader.__next__` always passes the list form). -/
inductive RawData
  | str (s : Line)
  | list (ls : List Line)
deriving DecidableEq

/-- `Converter.__call__` token extraction: a single string is
whitespace-split; for a list, `values += line.split()` over every line. -/
def converterTokens : RawData → List Line
  | .str s => pySplitWs s
  | .list ls => (ls.map pySplitWs).flatten

/-- `IntConverter` (as instantiated, `nolist=False`):
`np.array(values, dtype=int)`, any unparsable token raising
`ConversionError("Unable to convert string to integer: ...")`. -/
def intConverterCall (strvalue : RawData) : Except PyError (List TValue) :=
  match (converterTokens strvalue).mapM pyIntTok with
  | some ns => .ok (ns.map .vint)
  | none => .error (.conversionError .unableInt)

/-- `FloatConverter` (as instantiated, `nolist=False`). -/
def floatConverterCall (strvalue : RawData) : Except PyError (List TValue) :=
  let values := converterTokens strvalue
  if values.all isFloatTok then .ok (values.map .vreal)
  else .error (.conversionError .unableFloat)

/-- `LogicalConverter.convert` accepts exactly the whole tokens
'T', 't', 'F', 'f'. -/
def logicalTok : Line → Option Bool
  | ['T'] => some true
  | ['t'] => some true
  | ['F'] => some false
  | ['f'] => some false
  | _ => none

/-- `LogicalConverter` (as instantiated, `nolist=False`). -/
def logicalConverterCall (strvalue : RawData) : Except PyError (List TValue) :=
  match (converterTokens strvalue).mapM logicalTok with
  | some bs => .ok (bs.map .vbool)
  | none => .error (.conversionError .unableLogical)

/-- `tmp[0::2] + 1.0j * tmp[1::2]`: consecutive (real, imaginary) pairs. -/
def pairTokens : List Line → List TValue
  | a :: b :: rest => .vcomplex a b :: pairTokens rest
  | _ => []

/-- `ComplexConverter.__call__` (as instantiated, `nolist=False`).  The
override begins with `values = strvalue.split()` unconditionally: on the list
form (the one the reader passes) this is `list.split()`, which raises
`AttributeError("'list' object has no attribute 'split'")`; the base class's
list branch is absent from the override.  On a single string: odd token
count raises `ConversionError("Complex converter needs even strings")`,
then `convert` float-parses all tokens and pairs them. -/
def complexConverterCall : RawData → Except PyError (List TValue)
  | .list _ => .error (.attributeError .listHasNoSplit)
  | .str s =>
      let values := pySplitWs s
      if values.length % 2 = 1 then .error (.conversionError .needsEven)
      else if values.all isFloatTok then .ok (pairTokens values)
      else .error (.conversionError .unableComplex)

/-- The `TaggedEntry._CONVERTERS` table: dtype → converter, `none` for an
unknown dtype. -/
def converterFor (dtype : Line) : Option (RawData → Except PyError (List TValue)) :=
  if dtype = lit "integer" then some intConverterCall
  else if dtype = lit "real" then some floatConverterCall
  else if dtype = lit "complex" then some complexConverterCall
  else if dtype = lit "logical" then some logicalConverterCall
  else none

/-! ## The tagline pattern

`TaggedEntry._PAT_TAGLINE` is
`^@(?P<name>[^: ]+)\s*:(?P<dtype>[^:]+):(?P<rank>\d):(?P<shape>(?:\d+(?:,\d+)*)?)$`.

None of the pieces `[^: ]+`, `\s*`, `[^:]+`, `\d`, `\d+(,\d+)*` can contain
`':'`, so a line matches iff after the leading `'@'` it splits on `':'` into
exactly four segments `[p, b, c, d]` where
  - `p` decomposes as a nonempty `[^: ]+` part followed by a `\s*` part;
    greedy matching makes the name group the longest space-free prefix of
    `p`, and the decomposition exists iff that prefix is nonempty and the
    remainder of `p` (from its first `' '` on) is all whitespace;
  - `b` (the dtype group) is nonempty;
  - `c` is a single digit (the rank group);
  - `d` (the shape group) is empty or a comma-separated list of nonempty
    digit strings. -/

def nameGrpOK (p : Line) : Bool :=
  !(p.takeWhile (fun c => c != ' ')).isEmpty
    && (p.dropWhile (fun c => c != ' ')).all isPySpace

def shapeGrpOK (d : Line) : Bool :=
  d.isEmpty || (splitOnChar ',' d).all (fun seg => !seg.isEmpty && seg.all Char.isDigit)

/-- `_PAT_TAGLINE.match(line)`: `none` for no match, otherwise the four
captured groups (name, dtype, rank digit, shape). -/
def matchTagline (line : Line) : Option (Line × Line × Char × Line) :=
  match line with
  | [] => none
  | c0 :: rest =>
      if c0 = '@' then
        match splitOnChar ':' rest with
        | [p, b, [c], d] =>
            if nameGrpOK p && !b.isEmpty && c.isDigit && shapeGrpOK d then
              some (p.takeWhile (fun ch => ch != ' '), b, c, d)
            else none
        | _ => none
      else none

/-- The tag header assembled from its four fields (used to quantify over
headers of the grammatical shape `@name:dtype:rank:shape`). -/
def taglineOf (name dtype rs shape : Line) : Line :=
  '@' :: (name ++ ':' :: (dtype ++ ':' :: (rs ++ ':' :: shape)))

/-- `tuple([int(s) for s in match.group("shape").split(",")])`; `none` models
the uncaught `ValueError` of `int("")` (reachable when rank > 0 and the shape
group is empty, since `"".split(",") == [""]`). -/
def parseShape (d : Line) : Option (List Nat) :=
  (splitOnChar ',' d).mapM natOfDigits?

/-! ## TaggedEntry -/

/-- A constructed tagged entry.  `data` holds the flat decoded values; the
numpy reshape of the source only rearranges them into an array of the
recorded `shape` (raising `ValueError` when the sizes disagree, which the
constructor models), so the flat list plus `shape` carries the same
information. -/
structure TaggedEntry where
  tagline : Line
  name : Line
  dtype : Line
  rank : Nat
  shape : List Nat
  data : List TValue
deriving DecidableEq

/-- The shape attribute computed by `__init__`:
`tuple([int(s) for s in match.group("shape").split(",")])` when rank > 0
(the `int("")` `ValueError` escaping uncaught), the empty tuple otherwise. -/
def computeShape (rank : Nat) (shapeGrp : Line) : Except PyError (List Nat) :=
  if rank > 0 then
    match parseShape shapeGrp with
    | some sh => .ok sh
    | none => .error (.valueError .invalidIntLiteral)
  else .ok []

/-- `TaggedEntry.__init__(tagline, data)`, step by step in source order:
strip and store the tagline; regex-match the (unstripped) tagline, mismatch
raising `InvalidEntryError(msg="Invalid tag format")` (line fields left at
their 0 defaults); read rank; for rank > 0 parse the shape group (`int("")`
raising an uncaught `ValueError`); unknown dtype raising
`InvalidEntryError(msg="Invalid data dtype '...'")`; run the converter, a
`ConversionError` being re-raised as `InvalidEntryError(msg=str(ex))` while
any other exception propagates unchanged; then the shape/rank/count checks;
finally `np.reshape(data, self.shape)`, whose failure (only possible for
rank 0 with value count ≠ 1, the empty shape's product being 1) is an
uncaught `ValueError`. -/
def TaggedEntry.mk? (tagline : Line) (data : RawData) : Except PyError TaggedEntry :=
  match matchTagline tagline with
  | none => .error (.invalidEntry 0 0 .invalidTagFormat)
  | some (name, dtype, rankC, shapeGrp) =>
      match computeShape (rankC.toNat - 48) shapeGrp with
      | .error e => .error e
      | .ok shape =>
          match converterFor dtype with
          | none => .error (.invalidEntry 0 0 (.invalidDtype dtype))
          | some conv =>
              match conv data with
              | .error (.conversionError m) => .error (.invalidEntry 0 0 (.convError m))
              | .error e => .error e
              | .ok vals =>
                  if shape ≠ [] then
                    if shape.length ≠ rankC.toNat - 48 then
                      .error (.invalidEntry 0 0 .incompatibleRankShape)
                    else if vals.length ≠ shape.prod then
                      .error (.invalidEntry 0 0 .invalidNrValues)
                    else .ok ⟨pyStrip tagline, name, dtype, rankC.toNat - 48, shape, vals⟩
                  else if rankC.toNat - 48 ≠ 0 then
                    .error (.invalidEntry 0 0 .incompatibleRankShape)
                  else if vals.length = 1 then
                    .ok ⟨pyStrip tagline, name, dtype, rankC.toNat - 48, shape, vals⟩
                  else .error (.valueError .cannotReshape)

/-! ## TaggedCollection

`self._names` is a Python dict (insertion-ordered, unique keys), modelled as
an association list; `len(self._names)` is the number of keys. -/

def dictGet : List (Line × Nat) → Line → Option Nat
  | [], _ => none
  | (k, v) :: rest, key => if k = key then some v else dictGet rest key

/-- `d[key] = v`: update in place if present, else append. -/
def dictSet : List (Line × Nat) → Line → Nat → List (Line × Nat)
  | [], key, v => [(key, v)]
  | (k, w) :: rest, key, v =>
      if k = key then (k, v) :: rest else (k, w) :: dictSet rest key v

/-- `d.pop(key, None)`: the removed value (or `none`) and the remaining dict. -/
def dictPop : List (Line × Nat) → Line → Option Nat × List (Line × Nat)
  | [], _ => (none, [])
  | (k, v) :: rest, key =>
      if k = key then (some v, rest)
      else
        let r := dictPop rest key
        (r.1, (k, v) :: r.2)

structure TaggedCollection where
  names : List (Line × Nat)
  entries : List TaggedEntry
deriving DecidableEq

/-- One iteration of `TaggedCollection.extend`:
`self._names[entry.name] = len(self._names)` — the number of *distinct names*
before the assignment, not the append position — then
`self._entries.append(entry)`. -/
def TaggedCollection.extendOne (c : TaggedCollection) (e : TaggedEntry) : TaggedCollection :=
  ⟨dictSet c.names e.name c.names.length, c.entries ++ [e]⟩

/-- `TaggedCollection.extend(entries)`. -/
def TaggedCollection.extend (c : TaggedCollection) (es : List TaggedEntry) : TaggedCollection :=
  es.foldl TaggedCollection.extendOne c

/-- `TaggedCollection(entries)`: empty `_names`/`_entries`, then `extend`. -/
def TaggedCollection.ofList (es : List TaggedEntry) : TaggedCollection :=
  TaggedCollection.extend ⟨[], []⟩ es

/-- `TaggedCollection.get(name)`: `ii = self._names.get(name)`, then
`self._entries[ii]` when found (a stale out-of-range index would raise
`IndexError`), else `None`. -/
def TaggedCollection.get (c : TaggedCollection) (name : Line) :
    Except PyError (Option TaggedEntry) :=
  match dictGet c.names name with
  | none => .ok none
  | some ii =>
      match c.entries[ii]? with
      | some e => .ok (some e)
      | none => .error .indexError

/-- `TaggedCollection.remove(name)`: `ii = self._names.pop(name, None)`; when
found, `del self._entries[ii]` and then `del self._taglines[ii]` — but no
attribute `_taglines` is ever created anywhere in the class, so this last
statement raises `AttributeError`, after the two mutations already happened.
The result pairs the raised-or-returned outcome with the object state left
behind. -/
def TaggedCollection.remove (c : TaggedCollection) (name : Line) :
    Except PyError Unit × TaggedCollection :=
  match dictPop c.names name with
  | (none, _) => (.ok (), c)
  | (some ii, names') =>
      if ii < c.entries.length then
        (.error (.attributeError .noTaglinesAttr), ⟨names', c.entries.eraseIdx ii⟩)
      else
        (.error .indexError, ⟨names', c.entries⟩)

/-- A compiled regular expression, taken extensionally: `matchAt s` is the
truth value of `pattern.match(s)`, i.e. whether the pattern matches a prefix
of `s` (Python `re.match` anchors at offset 0 only). -/
structure CompiledPattern where
  matchAt : Line → Bool

/-- The semantics of `re.match` for a pattern that is a literal string with
no metacharacters: the pattern text must be a prefix of the subject. -/
def reLiteral (l : Line) : CompiledPattern :=
  ⟨fun s => l.isPrefixOf s⟩

/-- `TaggedCollection.matching_taglines(pattern)`: the entries of
`self._entries`, in order, whose stored `tagline` the pattern matches. -/
def TaggedCollection.matching_taglines (c : TaggedCollection) (pat : CompiledPattern) :
    List TaggedEntry :=
  c.entries.filter (fun e => pat.matchAt e.tagline)

/-! ## TaggedReader -/

/-- `TaggedReader._readnext_tagline`: read lines until one starts with `'@'`
(or the stream ends); returns (lines read before it, that tagline or the
empty string at end of stream, remaining stream). -/
def readnextTagline : List Line → List Line × Line × List Line
  | [] => ([], [], [])
  | l :: rest =>
      if isTagline l then ([], l, rest)
      else
        (l :: (readnextTagline rest).1, (readnextTagline rest).2.1,
          (readnextTagline rest).2.2)

/-- `TaggedReader` state: the unread remainder of the stream, the lookahead
buffer `_lasttagline` (the empty string when exhausted), the line index
`_lasttagline_ind`, and the *misspelled* attribute `_lastagline_ind` that
`__next__`'s final assignment actually creates (absent, i.e. `none`, until
the first successful `next`). -/
structure TaggedReader where
  stream : List Line
  lasttagline : Line
  lasttagline_ind : Nat
  lastagline_ind : Option Nat
deriving DecidableEq

/-- `TaggedReader.__init__`: scan to the first tagline;
`self._lasttagline_ind = len(dummy)` (the number of skipped prose lines,
i.e. the 0-based index of the buffered tagline). -/
def TaggedReader.init (lines : List Line) : TaggedReader :=
  ⟨(readnextTagline lines).2.2, (readnextTagline lines).2.1,
    (readnextTagline lines).1.length, none⟩

/-- The outcome of one `__next__` call: `StopIteration`, an exception
(with the reader object as mutated when the exception left `__next__`),
or a yielded entry. -/
inductive NextResult
  | stop
  | err (e : PyError) (r : TaggedReader)
  | entry (e : TaggedEntry) (r : TaggedReader)
deriving DecidableEq

/-- `TaggedReader.__next__`, in source order: `StopIteration` on an empty
lookahead; read the data block and the next tagline; construct the entry
from the buffered header and the block; a raised `InvalidEntryError` is
re-raised as `InvalidEntryError(self._lasttagline_ind + 1, tagline_ind, msg)`
(any other exception propagates unchanged), in both cases *before* the
buffer updates, so only the stream position has moved; on success
`self._lasttagline = tagline` but the following line of the source assigns
`tagline_ind` to the misspelled attribute `self._lastagline_ind`, leaving
`self._lasttagline_ind` unchanged forever. -/
def TaggedReader.next (r : TaggedReader) : NextResult :=
  if r.lasttagline = [] then .stop
  else
    match TaggedEntry.mk? r.lasttagline (.list (readnextTagline r.stream).1) with
    | .error (.invalidEntry _ _ m) =>
        .err (.invalidEntry (r.lasttagline_ind + 1)
                (r.lasttagline_ind + (readnextTagline r.stream).1.length) m)
          { r with stream := (readnextTagline r.stream).2.2 }
    | .error e => .err e { r with stream := (readnextTagline r.stream).2.2 }
    | .ok ent =>
        .entry ent ⟨(readnextTagline r.stream).2.2, (readnextTagline r.stream).2.1,
          r.lasttagline_ind,
          some (r.lasttagline_ind + (readnextTagline r.stream).1.length)⟩

/-- Fuel-indexed iteration of the reader: collect yielded entries until
`StopIteration` (second component `none`) or an exception (recorded).  The
fuel only bounds recursion; `runReader` supplies enough for it never to run
out (each step consumes at least one stream line or empties the buffer). -/
def runReaderFuel : Nat → TaggedReader → List TaggedEntry × Option PyError
  | 0, _ => ([], none)
  | fuel + 1, r =>
      match r.next with
      | .stop => ([], none)
      | .err e _ => ([], some e)
      | .entry ent r' =>
          ((ent :: (runReaderFuel fuel r').1), (runReaderFuel fuel r').2)

/-- Draining a reader by iterating `__next__`. -/
def runReader (r : TaggedReader) : List TaggedEntry × Option PyError :=
  runReaderFuel (r.stream.length + 1) r

/-- Fuel-indexed decomposition of the stream into (header, data block)
pairs, mirroring the reader's scanning. -/
def blocksFromFuel : Nat → Line → List Line → List (Line × List Line)
  | 0, _, _ => []
  | fuel + 1, tl, stream =>
      if tl = [] then []
      else
        (tl, (readnextTagline stream).1) ::
          blocksFromFuel fuel (readnextTagline stream).2.1 (readnextTagline stream).2.2

/-- The (header line, data block) pairs of a file, in file order, everything
before the first header line being skipped. -/
def fileBlocks (lines : List Line) : List (Line × List Line) :=
  blocksFromFuel ((readnextTagline lines).2.2.length + 1) (readnextTagline lines).2.1
    (readnextTagline lines).2.2

/-! ## Concrete entries and streams used in the theorems -/

/-- Scalar integer entry named `x` with value 1. -/
def entryX1 : TaggedEntry :=
  ⟨lit "@x:integer:0:", lit "x", lit "integer", 0, [], [.vint 1]⟩

/-- Scalar integer entry named `x` with value 2. -/
def entryX2 : TaggedEntry :=
  ⟨lit "@x:integer:0:", lit "x", lit "integer", 0, [], [.vint 2]⟩

/-- Scalar integer entry named `y` with value 3. -/
def entryY : TaggedEntry :=
  ⟨lit "@y:integer:0:", lit "y", lit "integer", 0, [], [.vint 3]⟩

/-- A two-entry file whose second block is malformed exactly as in the spec's
example: the tagline declares rank 2 with shape 2,3 but only 5 data values
follow.  The failing block is lines 3–4 (1-based). -/
def c1lines : List Line :=
  [lit "@a:integer:0:", lit " 1", lit "@b:integer:2:2,3", lit " 1 2 3 4 5"]

/-- The reader state after the first (successful) `next` over `c1lines`. -/
def c1reader1 : TaggedReader :=
  ⟨[lit " 1 2 3 4 5"], lit "@b:integer:2:2,3", 0, some 1⟩

/-- A file whose first block is malformed (a rank-0 scalar with three data
values) and whose second block is fine. -/
def c10lines : List Line :=
  [lit "@a:integer:0:", lit " 1 2 3", lit "@b:integer:0:", lit " 7"]

/-- The reader state after the failing first `next` over `c10lines`: the
stream has been consumed through the second header, but the lookahead buffer
still holds the first (failed) header. -/
def c10reader1 : TaggedReader :=
  ⟨[lit " 7"], lit "@a:integer:0:", 0, none⟩

/-- A well-formed file with leading prose and one entry. -/
def c7lines : List Line :=
  [lit "prose line", lit "@a:integer:0:", lit " 1", lit "@b:real:1:2",
    lit " 1.5", lit " 2.5"]

/-! ## Helper lemmas -/

lemma dictPop_fst (d : List (Line × Nat)) (k : Line) : (dictPop d k).1 = dictGet d k := by
  induction d with
  | nil => rfl
  | cons kv rest ih =>
      obtain ⟨k', v⟩ := kv
      by_cases h : k' = k <;> simp [dictPop, dictGet, h, ih]

/-! ## Claim C1 -/

/-- Claim C1 states that the Invalid-Entry error raised when constructing the
k-th entry fails carries the 1-based line range [header line, last data line]
of exactly that failing block, the running counter staying correct across
entries.  The code violates this: `__next__` assigns the updated index to the
misspelled attribute `_lastagline_ind`, so `_lasttagline_ind` never moves.
Over `c1lines` the first `next` succeeds (leaving `_lasttagline_ind` still 0
while the typo'd attribute received 1), and the second `next` fails on the
block that occupies lines 3–4 of the file but reports the range (1, 1). -/
theorem claim_C1_stale_line_range :
    (TaggedReader.init c1lines).next =
      .entry ⟨lit "@a:integer:0:", lit "a", lit "integer", 0, [], [.vint 1]⟩ c1reader1 ∧
    c1reader1.lasttagline_ind = 0 ∧
    c1reader1.lastagline_ind = some 1 ∧
    c1reader1.next =
      .err (.invalidEntry 1 1 .invalidNrValues) ⟨[], lit "@b:integer:2:2,3", 0, some 1⟩ ∧
    c1lines[2]? = some (lit "@b:integer:2:2,3") ∧
    c1lines[3]? = some (lit " 1 2 3 4 5") ∧
    ¬(1 = 3 ∧ 1 = 4) := by
  refine ⟨by decide, by decide, by decide, by decide, by decide, by decide, by decide⟩

/-! ## Claim C2 -/

/-- Claim C2 states that `extend` records each entry's name as mapping to the
position at which the entry was appended.  The code instead assigns
`len(self._names)` — the number of distinct names — which diverges from the
append position as soon as a duplicate name has been extended: after
extending entries named x, x, y (values 1, 2, 3), the index maps y to
position 1, where the second x-entry sits, so `get("y")` returns an entry
named x while the y-entry sits unreachable at position 2. -/
theorem claim_C2_index_position :
    (TaggedCollection.ofList [entryX1, entryX2, entryY]).get (lit "y") =
      .ok (some entryX2) ∧
    entryX2.name = lit "x" ∧
    lit "y" ≠ lit "x" ∧
    dictGet (TaggedCollection.ofList [entryX1, entryX2, entryY]).names (lit "y") = some 1 ∧
    (TaggedCollection.ofList [entryX1, entryX2, entryY]).entries[2]? = some entryY := by
  refine ⟨by decide, by decide, by decide, by decide, by decide⟩

/-! ## Claim C3 -/

/-- Claim C3 states that complex decoding of raw data supplied as a list of
lines (the form the reader passes) concatenates the tokens of all lines and
pairs them.  The code's `ComplexConverter.__call__` instead begins with
`strvalue.split()`, which on a list raises `AttributeError` for every input,
so a complex entry read from a file always fails with an uncaught
`AttributeError`; the described tokenize-and-pair behaviour (odd count fails,
2n tokens give n pairs in order) exists only on the single-string path the
reader never uses. -/
theorem claim_C3_complex_list_crash :
    TaggedEntry.mk? (lit "@c:complex:0:") (.list [lit " 1.0 2.0"]) =
      .error (.attributeError .listHasNoSplit) ∧
    (∀ ls : List Line, complexConverterCall (.list ls) =
      .error (.attributeError .listHasNoSplit)) ∧
    complexConverterCall (.str (lit " 1.0 2.0")) =
      .ok [.vcomplex (lit "1.0") (lit "2.0")] ∧
    complexConverterCall (.str (lit " 1.0 2.0 3.0")) =
      .error (.conversionError .needsEven) ∧
    complexConverterCall (.str (lit "1.0 2.0 3.0 4.0")) =
      .ok [.vcomplex (lit "1.0") (lit "2.0"), .vcomplex (lit "3.0") (lit "4.0")] := by
  refine ⟨by decide, fun ls => rfl, by decide, by decide, by decide⟩

/-! ## Claim C4 -/

/-- Claim C4 states that `remove(n)` of an indexed name terminates normally,
deleting the index mapping and the entry.  The code pops the name and deletes
the entry, but then executes `del self._taglines[ii]` on an attribute that is
never created anywhere in the class, raising `AttributeError` on every
removal of a present name (after the two mutations already happened). -/
theorem claim_C4_remove_raises (c : TaggedCollection) (n : Line) (ii : Nat)
    (hfound : dictGet c.names n = some ii) (hii : ii < c.entries.length) :
    (c.remove n).1 = .error (.attributeError .noTaglinesAttr) ∧
    (c.remove n).2.entries.length + 1 = c.entries.length := by
  have h1 : (dictPop c.names n).1 = some ii := by rw [dictPop_fst]; exact hfound
  unfold TaggedCollection.remove
  rcases hp : dictPop c.names n with ⟨v, names'⟩
  rw [hp] at h1
  simp only at h1
  subst h1
  dsimp only
  rw [if_pos hii]
  exact ⟨rfl, List.length_eraseIdx_add_one hii⟩

/-- Witness for `claim_C4_remove_raises` at a one-entry collection. -/
theorem claim_C4_remove_raises_witness :
    ((TaggedCollection.ofList [entryX1]).remove (lit "x")).1 =
      .error (.attributeError .noTaglinesAttr) ∧
    ((TaggedCollection.ofList [entryX1]).remove (lit "x")).2.entries.length + 1 =
      (TaggedCollection.ofList [entryX1]).entries.length :=
  claim_C4_remove_raises (TaggedCollection.ofList [entryX1]) (lit "x") 0
    (by decide) (by decide)

/-! ## Claim C6 -/

/-- Claim C6 states that a rank-0 entry construction succeeds exactly on one
decoded value, failing with an Invalid-Entry error otherwise, that error
being the only kind surfaced to the reader's caller.  The success/failure
split is as claimed, but the failure is `np.reshape`'s `ValueError`, raised
uncaught from `__init__` and passed through `__next__` unwrapped (its
`except` clause catches only `InvalidEntryError`), so the caller sees a raw
`ValueError`, not an Invalid-Entry error. -/
theorem claim_C6_rank0_error_kind :
    TaggedEntry.mk? (lit "@a:integer:0:") (.list [lit " 1 2"]) =
      .error (.valueError .cannotReshape) ∧
    TaggedEntry.mk? (lit "@a:integer:0:") (.list []) =
      .error (.valueError .cannotReshape) ∧
    TaggedEntry.mk? (lit "@a:integer:0:") (.list [lit " 7"]) =
      .ok ⟨lit "@a:integer:0:", lit "a", lit "integer", 0, [], [.vint 7]⟩ ∧
    (TaggedReader.init [lit "@a:integer:0:", lit " 1 2"]).next =
      .err (.valueError .cannotReshape) ⟨[], lit "@a:integer:0:", 0, none⟩ ∧
    (∀ s t m, PyError.valueError .cannotReshape ≠ .invalidEntry s t m) := by
  refine ⟨by decide, by decide, by decide, by decide, fun s t m hc => by cases hc⟩

/-! ## Claim C8 -/

/-- Claim C8: for a collection built by extending the empty collection with
[e1, e2] where both entries carry the same name, `get` of that name returns
e2, the later entry. -/
theorem claim_C8_get_latest (e1 e2 : TaggedEntry) (h : e1.name = e2.name) :
    (TaggedCollection.ofList [e1, e2]).get e2.name = .ok (some e2) := by
  simp [TaggedCollection.ofList, TaggedCollection.extend, TaggedCollection.extendOne,
    TaggedCollection.get, dictSet, dictGet, h]

/-- Witness for `claim_C8_get_latest` at the spec's concrete example:
entries named x with values 1 and 2; `get("x")` returns the value-2 entry. -/
theorem claim_C8_get_latest_witness :
    (TaggedCollection.ofList [entryX1, entryX2]).get entryX2.name = .ok (some entryX2) :=
  claim_C8_get_latest entryX1 entryX2 rfl

/-! ## Claim C9 -/

/-- Claim C9: `matching_taglines` returns, in sequence order, exactly the
entries whose raw stored header text the pattern matches at offset 0
(`re.match` anchoring, captured extensionally by `CompiledPattern.matchAt`);
for a literal pattern this is starts-with semantics, so `@eigen` selects
`@eigenlevels_up:real:2:2,15` but not `@foo_eigen:...`. -/
theorem claim_C9_matching (c : TaggedCollection) (pat : CompiledPattern) :
    (c.matching_taglines pat).Sublist c.entries ∧
    (∀ e, e ∈ c.matching_taglines pat ↔ e ∈ c.entries ∧ pat.matchAt e.tagline = true) ∧
    (reLiteral (lit "@eigen")).matchAt (lit "@eigenlevels_up:real:2:2,15") = true ∧
    (reLiteral (lit "@eigen")).matchAt (lit "@foo_eigen:real:2:2,15") = false := by
  refine ⟨List.filter_sublist c.entries, fun e => List.mem_filter, by decide, by decide⟩

/-! ## Claim C10 -/

/-- Claim C10: when `__next__` raises, the raise happens before the buffer
updates, so the lookahead state is unchanged — the buffered header and its
line index still refer to the failed entry — while the stream has already
been consumed through the next header line; consequently a subsequent
`next()` that yields an entry has constructed it from the failed block's
header paired with the following block's data. -/
theorem claim_C10_stale_lookahead (r r' : TaggedReader) (e : PyError)
    (h : r.next = .err e r') :
    r'.lasttagline = r.lasttagline ∧
    r'.lasttagline_ind = r.lasttagline_ind ∧
    r'.lastagline_ind = r.lastagline_ind ∧
    r'.stream = (readnextTagline r.stream).2.2 ∧
    (∀ ent r'', r'.next = .entry ent r'' →
      TaggedEntry.mk? r.lasttagline (.list (readnextTagline r'.stream).1) = .ok ent) := by
  unfold TaggedReader.next at h
  by_cases ht : r.lasttagline = []
  · rw [if_pos ht] at h; cases h
  · rw [if_neg ht] at h
    have hr' : r' = { r with stream := (readnextTagline r.stream).2.2 } := by
      cases hmk : TaggedEntry.mk? r.lasttagline (.list (readnextTagline r.stream).1) with
      | ok ent => rw [hmk] at h; cases h
      | error pe =>
          rw [hmk] at h
          cases pe with
          | invalidEntry s t m => cases h; rfl
          | conversionError m => cases h; rfl
          | attributeError a => cases h; rfl
          | valueError v => cases h; rfl
          | indexError => cases h; rfl
    subst hr'
    refine ⟨rfl, rfl, rfl, rfl, ?_⟩
    intro ent r'' hnext
    unfold TaggedReader.next at hnext
    rw [if_neg ht] at hnext
    cases hmk2 : TaggedEntry.mk?
        ({ r with stream := (readnextTagline r.stream).2.2 } : TaggedReader).lasttagline
        (.list (readnextTagline
          ({ r with stream := (readnextTagline r.stream).2.2 } : TaggedReader).stream).1) with
    | error pe =>
        rw [hmk2] at hnext
        cases pe with
        | invalidEntry s t m => cases hnext
        | conversionError m => cases hnext
        | attributeError a => cases hnext
        | valueError v => cases hnext
        | indexError => cases hnext
    | ok ent0 =>
        rw [hmk2] at hnext
        cases hnext
        exact hmk2.symm ▸ rfl

/-- Witness for `claim_C10_stale_lookahead`: over `c10lines` the first
`next` fails (rank-0 header with three values), leaving the failed header
buffered while the stream stands past the second header. -/
theorem claim_C10_stale_lookahead_witness :
    (TaggedReader.init c10lines).next = .err (.valueError .cannotReshape) c10reader1 ∧
    (c10reader1.lasttagline = (TaggedReader.init c10lines).lasttagline ∧
      c10reader1.lasttagline_ind = (TaggedReader.init c10lines).lasttagline_ind ∧
      c10reader1.lastagline_ind = (TaggedReader.init c10lines).lastagline_ind ∧
      c10reader1.stream = (readnextTagline (TaggedReader.init c10lines).stream).2.2 ∧
      (∀ ent r'', c10reader1.next = .entry ent r'' →
        TaggedEntry.mk? (TaggedReader.init c10lines).lasttagline
          (.list (readnextTagline c10reader1.stream).1) = .ok ent)) :=
  ⟨by decide,
   claim_C10_stale_lookahead (TaggedReader.init c10lines) c10reader1
     (.valueError .cannotReshape) (by decide)⟩

/-! ## Claim C5

Support lemmas characterising the tagline pattern on structured inputs. -/

lemma splitOnChar_no_sep (sep : Char) (l : Line) (h : ∀ c ∈ l, c ≠ sep) :
    splitOnChar sep l = [l] := by
  induction l with
  | nil => rfl
  | cons x xs ih =>
      have hx : x ≠ sep := h x (List.mem_cons_self x xs)
      have ih' := ih (fun c hc => h c (List.mem_cons_of_mem x hc))
      simp only [splitOnChar, if_neg hx, ih']

lemma splitOnChar_append (sep : Char) (a b : Line) (h : ∀ c ∈ a, c ≠ sep) :
    splitOnChar sep (a ++ sep :: b) = a :: splitOnChar sep b := by
  induction a with
  | nil => simp [splitOnChar]
  | cons x xs ih =>
      have hx : x ≠ sep := h x (List.mem_cons_self x xs)
      have ih' := ih (fun c hc => h c (List.mem_cons_of_mem x hc))
      simp only [List.cons_append, splitOnChar, if_neg hx, List.append_eq, ih']

lemma takeWhile_all (p : Char → Bool) (l : Line) (h : ∀ c ∈ l, p c = true) :
    l.takeWhile p = l := by
  induction l with
  | nil => rfl
  | cons x xs ih =>
      rw [List.takeWhile_cons, if_pos (h x (List.mem_cons_self x xs)),
        ih (fun c hc => h c (List.mem_cons_of_mem x hc))]

lemma dropWhile_all (p : Char → Bool) (l : Line) (h : ∀ c ∈ l, p c = true) :
    l.dropWhile p = [] := by
  induction l with
  | nil => rfl
  | cons x xs ih =>
      rw [List.dropWhile_cons, if_pos (h x (List.mem_cons_self x xs)),
        ih (fun c hc => h c (List.mem_cons_of_mem x hc))]

/-- A header assembled from a space-and-colon-free nonempty name, a
colon-free nonempty dtype, a single digit rank and a well-formed shape group
matches the pattern, with the four groups captured verbatim. -/
lemma matchTagline_structured (name dtype : Line) (c : Char) (shape : Line)
    (hn1 : name ≠ []) (hn2 : ∀ ch ∈ name, ch ≠ ':' ∧ ch ≠ ' ')
    (hd1 : dtype ≠ []) (hd2 : ∀ ch ∈ dtype, ch ≠ ':')
    (hc : c.isDigit = true)
    (hs : shapeGrpOK shape = true) (hsc : ∀ ch ∈ shape, ch ≠ ':') :
    matchTagline (taglineOf name dtype [c] shape) = some (name, dtype, c, shape) := by
  have hcc : c ≠ ':' := fun h => absurd (h ▸ hc) (by decide)
  have htw : name.takeWhile (fun ch => ch != ' ') = name :=
    takeWhile_all _ _ (fun ch hch => bne_iff_ne.mpr (hn2 ch hch).2)
  have hdw : name.dropWhile (fun ch => ch != ' ') = [] :=
    dropWhile_all _ _ (fun ch hch => bne_iff_ne.mpr (hn2 ch hch).2)
  have hde : dtype.isEmpty = false := by
    cases dtype with
    | nil => exact absurd rfl hd1
    | cons a l => rfl
  have hname : nameGrpOK name = true := by
    unfold nameGrpOK
    rw [htw, hdw]
    cases name with
    | nil => exact absurd rfl hn1
    | cons a l => rfl
  unfold taglineOf matchTagline
  dsimp only
  rw [if_pos (rfl : ('@' : Char) = '@')]
  rw [splitOnChar_append ':' name _ (fun ch hch => (hn2 ch hch).1),
    splitOnChar_append ':' dtype _ hd2,
    splitOnChar_append ':' [c] _
      (fun ch hch => by rw [List.mem_singleton] at hch; subst hch; exact hcc),
    splitOnChar_no_sep ':' shape hsc]
  dsimp only
  rw [if_pos (by rw [hname, hde, hc, hs]; rfl)]
  rw [htw]

/-- A header whose rank field holds two or more characters never matches the
pattern (`(?P<rank>\d)` consumes exactly one digit). -/
lemma matchTagline_structured_multi (name dtype rs shape : Line)
    (hn2 : ∀ ch ∈ name, ch ≠ ':') (hd2 : ∀ ch ∈ dtype, ch ≠ ':')
    (hr : ∀ ch ∈ rs, ch ≠ ':') (hlen : 2 ≤ rs.length)
    (hsc : ∀ ch ∈ shape, ch ≠ ':') :
    matchTagline (taglineOf name dtype rs shape) = none := by
  cases rs with
  | nil => simp at hlen
  | cons c1 rs1 =>
      cases rs1 with
      | nil => simp at hlen
      | cons c2 rs2 =>
          unfold taglineOf matchTagline
          dsimp only
          rw [if_pos (rfl : ('@' : Char) = '@')]
          rw [splitOnChar_append ':' name _ hn2,
            splitOnChar_append ':' dtype _ hd2,
            splitOnChar_append ':' (c1 :: c2 :: rs2) _ hr,
            splitOnChar_no_sep ':' shape hsc]

lemma computeShape_error (rank : Nat) (g : Line) (e : PyError)
    (h : computeShape rank g = .error e) : e = .valueError .invalidIntLiteral := by
  unfold computeShape at h
  split at h
  · split at h
    · cases h
    · cases h; rfl
  · cases h

/-- No converter of the dtype table ever raises an `InvalidEntryError`
itself (their failures are `ConversionError` or `AttributeError`). -/
lemma converterFor_not_invalidEntry (dtype : Line)
    (cf : RawData → Except PyError (List TValue)) (hc : converterFor dtype = some cf)
    (data : RawData) (s t : Nat) (m : EntryMsg) :
    cf data ≠ .error (.invalidEntry s t m) := by
  unfold converterFor at hc
  split_ifs at hc <;> cases hc <;> intro hcontra
  · unfold intConverterCall at hcontra
    split at hcontra <;> simp_all
  · unfold floatConverterCall at hcontra
    dsimp only at hcontra
    split at hcontra <;> simp_all
  · cases data with
    | str s2 =>
        unfold complexConverterCall at hcontra
        dsimp only at hcontra
        split at hcontra
        · simp_all
        · split at hcontra <;> simp_all
    | list ls => simp [complexConverterCall] at hcontra
  · unfold logicalConverterCall at hcontra
    split at hcontra <;> simp_all

/-- Once the pattern has matched, no later step of entry construction fails
with the "Invalid tag format" message. -/
lemma mk?_ne_tagformat_of_match (tl name dtype : Line) (c : Char) (shp : Line)
    (data : RawData) (hm : matchTagline tl = some (name, dtype, c, shp)) :
    TaggedEntry.mk? tl data ≠ .error (.invalidEntry 0 0 .invalidTagFormat) := by
  intro hcontra
  unfold TaggedEntry.mk? at hcontra
  rw [hm] at hcontra
  dsimp only at hcontra
  split at hcontra
  · rename_i e heq
    rw [computeShape_error _ _ _ heq] at hcontra
    simp at hcontra
  · split at hcontra
    · simp at hcontra
    · rename_i conv hconv
      split at hcontra
      · simp at hcontra
      · rename_i e hov heq
        have he : e = PyError.invalidEntry 0 0 .invalidTagFormat := by
          injection hcontra
        rw [he] at heq
        exact converterFor_not_invalidEntry dtype conv hconv data 0 0 .invalidTagFormat heq
      · split at hcontra <;> (try split at hcontra) <;> (try split at hcontra) <;> simp_all

/-- Counterexample to claim C5 as stated: the claim asserts that a header
with a non-negative integer rank of two or more digits, such as 10 (with a
matching 10-element shape), is accepted past the grammar check.  The
pattern's rank group is `(?P<rank>\d)`, a single digit, so this header is
rejected with "Invalid tag format". -/
theorem claim_C5_counterexample :
    TaggedEntry.mk? (lit "@v:integer:10:1,1,1,1,1,1,1,1,1,1") (.list [lit " 1"]) =
      .error (.invalidEntry 0 0 .invalidTagFormat) := by decide

/-- Claim C5 as amended: for a header `@name:dtype:rank:shape` with a
nonempty name free of ':' and ' ', a nonempty dtype free of ':', an all-digit
rank field and a shape group that is empty or a comma-separated list of digit
strings, construction fails with "Invalid tag format" exactly when the rank
field has two or more digits; a single-digit rank is accepted past the
grammar check (subsequent checks, with their different errors, not being
part of the grammar stage). -/
theorem claim_C5_amended (name dtype rs shape : Line) (data : RawData)
    (hn1 : name ≠ []) (hn2 : ∀ ch ∈ name, ch ≠ ':' ∧ ch ≠ ' ')
    (hd1 : dtype ≠ []) (hd2 : ∀ ch ∈ dtype, ch ≠ ':')
    (hr : ∀ ch ∈ rs, ch.isDigit = true)
    (hs : shapeGrpOK shape = true) (hsc : ∀ ch ∈ shape, ch ≠ ':') :
    (rs.length = 1 →
      TaggedEntry.mk? (taglineOf name dtype rs shape) data ≠
        .error (.invalidEntry 0 0 .invalidTagFormat)) ∧
    (2 ≤ rs.length →
      TaggedEntry.mk? (taglineOf name dtype rs shape) data =
        .error (.invalidEntry 0 0 .invalidTagFormat)) := by
  constructor
  · intro hlen
    cases rs with
    | nil => simp at hlen
    | cons c rs1 =>
        cases rs1 with
        | cons c2 rs2 => simp at hlen
        | nil =>
            exact mk?_ne_tagformat_of_match _ name dtype c shape data
              (matchTagline_structured name dtype c shape hn1 hn2 hd1 hd2
                (hr c (List.mem_cons_self c [])) hs hsc)
  · intro hlen
    have hr' : ∀ ch ∈ rs, ch ≠ ':' :=
      fun ch hch h => absurd (h ▸ hr ch hch) (by decide)
    unfold TaggedEntry.mk?
    rw [matchTagline_structured_multi name dtype rs shape
      (fun ch hch => (hn2 ch hch).1) hd2 hr' hlen hsc]

/-- Witness for `claim_C5_amended` at rank fields "10" (rejected with
"Invalid tag format") and "2" (accepted past the grammar check). -/
theorem claim_C5_amended_witness :
    TaggedEntry.mk?
        (taglineOf (lit "v") (lit "integer") (lit "10") (lit "1,1,1,1,1,1,1,1,1,1"))
        (.list [lit " 1"]) =
      .error (.invalidEntry 0 0 .invalidTagFormat) ∧
    TaggedEntry.mk? (taglineOf (lit "v") (lit "integer") (lit "2") (lit "2,3"))
        (.list [lit " 1 2 3 4 5 6"]) ≠
      .error (.invalidEntry 0 0 .invalidTagFormat) :=
  ⟨(claim_C5_amended (lit "v") (lit "integer") (lit "10") (lit "1,1,1,1,1,1,1,1,1,1")
      (.list [lit " 1"]) (by decide) (by decide) (by decide) (by decide) (by decide)
      (by decide) (by decide)).2 (by decide),
   (claim_C5_amended (lit "v") (lit "integer") (lit "2") (lit "2,3")
      (.list [lit " 1 2 3 4 5 6"]) (by decide) (by decide) (by decide) (by decide)
      (by decide) (by decide) (by decide)).1 (by decide)⟩


/-! ## Claim C7

Support lemmas relating one reader step to the stream decomposition. -/

lemma readnext_decomp (l : List Line) :
    l = (readnextTagline l).1 ++
      (if (readnextTagline l).2.1 = [] then []
       else (readnextTagline l).2.1 :: (readnextTagline l).2.2) := by
  induction l with
  | nil => rfl
  | cons x rest ih =>
      by_cases hx : isTagline x = true
      · have hxne : x ≠ [] := by
          intro h; subst h; simp [isTagline] at hx
        simp only [readnextTagline, if_pos hx]
        rw [if_neg hxne]
        rfl
      · simp only [readnextTagline, if_neg hx]
        exact congrArg (List.cons x) ih

lemma readnext_prose (l : List Line) :
    ∀ y ∈ (readnextTagline l).1, isTagline y = false := by
  induction l with
  | nil => intro y hy; simp [readnextTagline] at hy
  | cons x rest ih =>
      by_cases hx : isTagline x = true
      · intro y hy; simp [readnextTagline, hx] at hy
      · intro y hy
        simp only [readnextTagline, if_neg hx] at hy
        rcases List.mem_cons.mp hy with h | h
        · subst h; simp at hx; exact hx
        · exact ih y h

lemma readnext_nil (l : List Line) :
    (readnextTagline l).2.1 = [] → (readnextTagline l).2.2 = [] := by
  induction l with
  | nil => intro _; rfl
  | cons x rest ih =>
      by_cases hx : isTagline x = true
      · intro h
        simp only [readnextTagline, if_pos hx] at h ⊢
        exact absurd h (by intro hc; subst hc; simp [isTagline] at hx)
      · intro h
        simp only [readnextTagline, if_neg hx] at h ⊢
        exact ih h

lemma readnext_tag (l : List Line) (h : (readnextTagline l).2.1 ≠ []) :
    isTagline (readnextTagline l).2.1 = true := by
  induction l with
  | nil => exact absurd rfl h
  | cons x rest ih =>
      by_cases hx : isTagline x = true
      · simp only [readnextTagline, if_pos hx]
        exact hx
      · simp only [readnextTagline, if_neg hx] at h ⊢
        exact ih h

lemma filter_taglines (l : List Line) :
    l.filter isTagline =
      if (readnextTagline l).2.1 = [] then []
      else (readnextTagline l).2.1 :: (readnextTagline l).2.2.filter isTagline := by
  conv_lhs => rw [readnext_decomp l]
  rw [List.filter_append]
  have h1 : (readnextTagline l).1.filter isTagline = [] := by
    rw [List.filter_eq_nil_iff]
    intro a ha
    simp [readnext_prose l a ha]
  rw [h1]
  by_cases ht : (readnextTagline l).2.1 = []
  · rw [if_pos ht, if_pos ht]; rfl
  · rw [if_neg ht, if_neg ht, List.filter_cons, if_pos (readnext_tag l ht)]
    rfl

lemma readnext_stream_lt (l : List Line) (h : (readnextTagline l).2.1 ≠ []) :
    (readnextTagline l).2.2.length < l.length := by
  have hd := readnext_decomp l
  rw [if_neg h] at hd
  have hlen := congrArg List.length hd
  simp [List.length_append] at hlen
  omega

lemma blocksFromFuel_nil (fuel : Nat) (stream : List Line) :
    blocksFromFuel fuel [] stream = [] := by
  cases fuel with
  | zero => rfl
  | succ f => simp [blocksFromFuel]

lemma blocks_map_fst (fuel : Nat) :
    ∀ (tl : Line) (stream : List Line),
      (stream.length < fuel ∨ tl = []) → (tl = [] → stream = []) →
      (blocksFromFuel fuel tl stream).map Prod.fst =
        (if tl = [] then [] else [tl]) ++ stream.filter isTagline := by
  induction fuel with
  | zero =>
      intro tl stream h hnil
      rcases h with h | h
      · omega
      · rw [blocksFromFuel, hnil h, if_pos h]
        rfl
  | succ fuel ih =>
      intro tl stream h hnil
      by_cases ht : tl = []
      · rw [ht, blocksFromFuel_nil, hnil ht, if_pos rfl]
        rfl
      · simp only [blocksFromFuel, if_neg ht, List.map_cons]
        by_cases ht2 : (readnextTagline stream).2.1 = []
        · rw [ih _ _ (Or.inr ht2) (readnext_nil stream), filter_taglines stream,
            readnext_nil stream ht2]
          simp [ht, ht2]
        · have hlt : (readnextTagline stream).2.2.length < fuel := by
            rcases h with h | h
            · have := readnext_stream_lt stream ht2
              omega
            · exact absurd h ht
          rw [ih _ _ (Or.inl hlt) (readnext_nil stream), filter_taglines stream]
          simp [ht, ht2]

lemma runReader_ok (fuel : Nat) :
    ∀ (tl : Line) (stream : List Line) (ind : Nat) (junk : Option Nat),
      (stream.length < fuel ∨ tl = []) →
      (∀ b ∈ blocksFromFuel fuel tl stream, (TaggedEntry.mk? b.1 (.list b.2)).isOk = true) →
      runReaderFuel fuel ⟨stream, tl, ind, junk⟩ =
        ((blocksFromFuel fuel tl stream).filterMap
          (fun b => (TaggedEntry.mk? b.1 (.list b.2)).toOption), none) := by
  induction fuel with
  | zero =>
      intro tl stream ind junk h hv
      rcases h with h | h
      · omega
      · rfl
  | succ fuel ih =>
      intro tl stream ind junk h hv
      by_cases ht : tl = []
      · subst ht
        rw [blocksFromFuel_nil]
        rw [runReaderFuel]
        simp [TaggedReader.next]
      · have hhead : (TaggedEntry.mk? tl (.list (readnextTagline stream).1)).isOk = true :=
          hv (tl, (readnextTagline stream).1)
            (by simp only [blocksFromFuel, if_neg ht]; exact List.mem_cons_self _ _)
        cases hmk : TaggedEntry.mk? tl (.list (readnextTagline stream).1) with
        | error e => rw [hmk] at hhead; simp [Except.isOk, Except.toBool] at hhead
        | ok ent =>
            have hnext : TaggedReader.next ⟨stream, tl, ind, junk⟩ =
                .entry ent ⟨(readnextTagline stream).2.2, (readnextTagline stream).2.1, ind,
                  some (ind + (readnextTagline stream).1.length)⟩ := by
              unfold TaggedReader.next
              rw [if_neg ht, hmk]
            have hv' : ∀ b ∈ blocksFromFuel fuel (readnextTagline stream).2.1
                (readnextTagline stream).2.2, (TaggedEntry.mk? b.1 (.list b.2)).isOk = true := by
              intro b hb
              exact hv b
                (by simp only [blocksFromFuel, if_neg ht]; exact List.mem_cons_of_mem _ hb)
            have hcond : (readnextTagline stream).2.2.length < fuel ∨
                (readnextTagline stream).2.1 = [] := by
              by_cases ht2 : (readnextTagline stream).2.1 = []
              · exact Or.inr ht2
              · left
                rcases h with h | h
                · have := readnext_stream_lt stream ht2
                  omega
                · exact absurd h ht
            have hred : (blocksFromFuel (fuel + 1) tl stream).filterMap
                  (fun b => (TaggedEntry.mk? b.1 (.list b.2)).toOption) =
                ent :: (blocksFromFuel fuel (readnextTagline stream).2.1
                  (readnextTagline stream).2.2).filterMap
                    (fun b => (TaggedEntry.mk? b.1 (.list b.2)).toOption) := by
              simp only [blocksFromFuel, if_neg ht]
              rw [List.filterMap_cons, hmk]
              rfl
            rw [runReaderFuel, hnext]
            dsimp only
            rw [ih _ _ _ _ hcond hv', hred]

lemma filterMap_toOption_length (bs : List (Line × List Line))
    (h : ∀ b ∈ bs, (TaggedEntry.mk? b.1 (.list b.2)).isOk = true) :
    (bs.filterMap (fun b => (TaggedEntry.mk? b.1 (.list b.2)).toOption)).length =
      bs.length := by
  induction bs with
  | nil => rfl
  | cons b bs ih =>
      have hb := h b (List.mem_cons_self b bs)
      cases hmk : TaggedEntry.mk? b.1 (.list b.2) with
      | error e => rw [hmk] at hb; simp [Except.isOk, Except.toBool] at hb
      | ok ent =>
          have hred : (b :: bs).filterMap
                (fun x => (TaggedEntry.mk? x.1 (.list x.2)).toOption) =
              ent :: bs.filterMap (fun x => (TaggedEntry.mk? x.1 (.list x.2)).toOption) := by
            rw [List.filterMap_cons, hmk]
            rfl
          rw [hred, List.length_cons, List.length_cons,
            ih (fun x hx => h x (List.mem_cons_of_mem b hx))]

/-- Claim C7: over a stream whose blocks all construct valid entries,
iterating the reader yields exactly one entry per header line (lines
starting with '@'), in file order — the yielded list is the per-block
construction result, the block headers are exactly the stream's header
lines in order, and the entry count equals the header count — and then
terminates normally (second component `none`, i.e. `StopIteration`, not an
error); with zero header lines this yields zero entries immediately, all
lines before the first header being skipped as prose. -/
theorem claim_C7_reader_yields (lines : List Line)
    (hvalid : ∀ b ∈ fileBlocks lines, (TaggedEntry.mk? b.1 (.list b.2)).isOk = true) :
    runReader (TaggedReader.init lines) =
      ((fileBlocks lines).filterMap
        (fun b => (TaggedEntry.mk? b.1 (.list b.2)).toOption), none) ∧
    (fileBlocks lines).map Prod.fst = lines.filter isTagline ∧
    (runReader (TaggedReader.init lines)).1.length = (lines.filter isTagline).length := by
  have h1 := runReader_ok ((readnextTagline lines).2.2.length + 1)
      (readnextTagline lines).2.1 (readnextTagline lines).2.2
      (readnextTagline lines).1.length none (Or.inl (by omega)) hvalid
  have h2 := blocks_map_fst ((readnextTagline lines).2.2.length + 1)
      (readnextTagline lines).2.1 (readnextTagline lines).2.2
      (Or.inl (by omega)) (readnext_nil lines)
  have h3 : (fileBlocks lines).map Prod.fst = lines.filter isTagline := by
    rw [show (fileBlocks lines).map Prod.fst =
        (blocksFromFuel ((readnextTagline lines).2.2.length + 1)
          (readnextTagline lines).2.1 (readnextTagline lines).2.2).map Prod.fst from rfl]
    rw [h2, filter_taglines lines]
    by_cases ht : (readnextTagline lines).2.1 = []
    · rw [if_pos ht, if_pos ht, readnext_nil lines ht]
      rfl
    · rw [if_neg ht, if_neg ht]
      rfl
  refine ⟨h1, h3, ?_⟩
  rw [show runReader (TaggedReader.init lines) =
      runReaderFuel ((readnextTagline lines).2.2.length + 1)
        ⟨(readnextTagline lines).2.2, (readnextTagline lines).2.1,
          (readnextTagline lines).1.length, none⟩ from rfl]
  rw [h1]
  dsimp only
  rw [filterMap_toOption_length
      (blocksFromFuel ((readnextTagline lines).2.2.length + 1) (readnextTagline lines).2.1
        (readnextTagline lines).2.2) hvalid,
    ← h3, List.length_map]
  rfl

/-- Witness for `claim_C7_reader_yields` over a concrete well-formed stream
with leading prose and two entries. -/
theorem claim_C7_reader_yields_witness :
    runReader (TaggedReader.init c7lines) =
      ((fileBlocks c7lines).filterMap
        (fun b => (TaggedEntry.mk? b.1 (.list b.2)).toOption), none) ∧
    (fileBlocks c7lines).map Prod.fst = c7lines.filter isTagline ∧
    (runReader (TaggedReader.init c7lines)).1.length =
      (c7lines.filter isTagline).length :=
  claim_C7_reader_yields c7lines (by decide)

end ValSimp
